import Mathlib

/-!
Verification of the AscendAI lead-assessment pipeline
(`src/ascendai/lead_assessor.py`, `src/ascendai/llm.py`, `src/models/lead.py`).

The Python code is shallowly embedded: JSON values become the inductive
`JValue` (floats are modelled as exact rationals), Python dicts become
association lists with unique keys, raising code returns `Except`/`Option`,
and the external collaborators (the Serper HTTP transport, the Bedrock
completion endpoint, `json.loads`/`json.dumps`) are universally quantified
parameters, exactly as the spec treats them (black-box capabilities).
-/

namespace AscendAI

/-- A JSON value as materialized by Python's `json.loads`: numbers are
modelled as exact rationals (the code only compares, clamps and averages
them). -/
inductive JValue where
  | jnull
  | jbool (b : Bool)
  | jnum (q : ℚ)
  | jstr (s : String)
  | jarr (elems : List JValue)
  | jobj (fields : List (String × JValue))

/-- A Python dict materialized from JSON. `json.loads` keeps the last of any
duplicated key, so dicts always carry unique keys and lookup order is
immaterial; we look up the first match. -/
abbrev JObj := List (String × JValue)

/-- Python truthiness of a JSON-derived value (`None`, `False`, `0`, `""`,
`[]` and `{}` are falsy). -/
def truthy : JValue → Bool
  | .jnull => false
  | .jbool b => b
  | .jnum q => decide (q ≠ 0)
  | .jstr s => decide (s ≠ "")
  | .jarr l => !l.isEmpty
  | .jobj d => !d.isEmpty

/-- `d.get(k)` on a Python dict holding JSON values: `none` models Python
`None`, which is reported both when the key is absent and when it maps to
JSON `null` (JSON `null` materializes as `None`). -/
def pyGet : JObj → String → Option JValue
  | [], _ => none
  | (k', v) :: rest, k =>
    if k' = k then
      match v with
      | .jnull => none
      | v => some v
    else pyGet rest k

/-- `k in d` for a Python dict. -/
def hasKey : JObj → String → Bool
  | [], _ => false
  | (k', _) :: rest, k => k' = k || hasKey rest k

/-- `d[k] = v` on a Python dict: replaces the value in place when the key is
present, appends the binding otherwise (insertion order is preserved, as in
CPython). -/
def dictSet : JObj → String → JValue → JObj
  | [], k, v => [(k, v)]
  | (k', v') :: rest, k, v =>
    if k' = k then (k, v) :: rest else (k', v') :: dictSet rest k v

/-- Python `a or b` where `a` came from a `.get` (so `none` is Python
`None`): returns `a`'s value when truthy, otherwise evaluates to `b`. -/
def pyOr (a b : Option JValue) : Option JValue :=
  match a with
  | some v => if truthy v then some v else b
  | none => b

/-- Python `a or dflt` with a non-`None` literal default. -/
def pyOrValD (a : Option JValue) (dflt : JValue) : JValue :=
  match a with
  | some v => if truthy v then v else dflt
  | none => dflt

/-- Truthiness of the result of a `.get` call. -/
def truthyOpt (a : Option JValue) : Bool :=
  match a with
  | some v => truthy v
  | none => false

/-- `str.strip()` (whitespace is modelled by `Char.isWhitespace`). -/
def pyStrip (s : String) : String :=
  String.mk (((s.data.dropWhile Char.isWhitespace).reverse.dropWhile
    Char.isWhitespace).reverse)

/-- The backtick character. -/
def tick : Char := Char.ofNat 96

/-- Does the text start with a triple-backtick fence? -/
def startsWithTicks : List Char → Bool
  | c1 :: c2 :: c3 :: _ => c1 == tick && c2 == tick && c3 == tick
  | _ => false

/-- Prepend a character to the first piece of a split. -/
def consHead (c : Char) : List (List Char) → List (List Char)
  | [] => [[c]]
  | hd :: tl => (c :: hd) :: tl

/-- Python `text.split` on the three-character separator of triple backticks:
scans left to right, cutting at each non-overlapping occurrence. -/
def splitTicks : List Char → List (List Char)
  | c1 :: c2 :: c3 :: rest =>
    if c1 == tick && c2 == tick && c3 == tick then
      [] :: splitTicks rest
    else
      consHead c1 (splitTicks (c2 :: c3 :: rest))
  | l => [l]

/-- The fence-stripping step shared by both parse attempts of
`BedrockLLM._fallback_to_json_conversion` (llm.py:79-86 and 110-116):
strip whitespace; when the text starts with a triple-backtick fence, take
the piece between the first pair of fences and drop a leading `json`
language tag; strip again. -/
def stripFence (response_text : String) : String :=
  let clean_text := pyStrip response_text
  let clean_text :=
    if startsWithTicks clean_text.data then
      let parts := splitTicks clean_text.data
      if parts.length ≥ 2 then
        let mid := parts.getD 1 []
        if ['j', 's', 'o', 'n'].isPrefixOf mid then String.mk (mid.drop 4)
        else String.mk mid
      else clean_text
    else clean_text
  pyStrip clean_text

/-- The fixer prompt of `_fallback_to_json_conversion` (llm.py:94-100). -/
def fixer_prompt (clean_text : String) : String :=
  "The assistant produced the following response which is intended to be a JSON array of lead objects, " ++
  "but it is not valid JSON. Please convert it into a valid JSON array of objects with these keys: " ++
  "company_name, industry, description, why_payu, source_url, company_size, lead_score (0-100). " ++
  "Preserve as much information as possible from the original output. Return ONLY the JSON array, no explanations.\n\n" ++
  "RAW_OUTPUT:\n" ++ clean_text

/-- `BedrockLLM._fallback_to_json_conversion` (llm.py:76-124). `loads` is
the external `json.loads` (`none` models `JSONDecodeError`); `generate_text`
is the same completion provider used for the primary call (`none` models a
provider exception). The second component counts how many fixer prompts were
issued; the `Except` error models the exception re-raised at llm.py:123,
which propagates to the caller of `generate_json`. -/
def fallback_to_json_conversion (loads : String → Option JValue)
    (generate_text : String → Option String) (response_text : String) :
    Except Unit JValue × Nat :=
  match loads (stripFence response_text) with
  | some leads => (.ok leads, 0)
  | none =>
    match generate_text (fixer_prompt (stripFence response_text)) with
    | none => (.error (), 1)
    | some out =>
      match loads (stripFence out) with
      | some leads => (.ok leads, 1)
      | none => (.error (), 1)

/-- Floor of a rational (own definition, kernel-reducible). -/
def ratFloor (q : ℚ) : ℤ := q.num.fdiv q.den

/-- Python `int(round(x))`: one-argument `round` returns the nearest
integer, breaking ties to the even integer; `int` of an int is the
identity. -/
def pyRound (q : ℚ) : ℤ :=
  let f := ratFloor q
  let r := q - (f : ℚ)
  if r < 1 / 2 then f
  else if 1 / 2 < r then f + 1
  else if f % 2 = 0 then f else f + 1

/-- Digit run to a natural number. -/
def digitsToNat (l : List Char) : ℕ :=
  l.foldl (fun n c => 10 * n + (c.toNat - 48)) 0

/-- Exponent part of a Python float literal: optional sign then at least one
digit, consuming the whole remainder. -/
def parseExp : List Char → Option ℤ
  | [] => none
  | cs =>
    let sign : ℤ := if cs.headD ' ' == '-' then -1 else 1
    let cs := if cs.headD ' ' == '-' || cs.headD ' ' == '+' then cs.tail else cs
    let ds := cs.takeWhile Char.isDigit
    let rest := cs.dropWhile Char.isDigit
    if ds.isEmpty || !rest.isEmpty then none
    else some (sign * (digitsToNat ds : ℤ))

/-- Python `float(s)` on a string: surrounding whitespace, an optional sign,
a decimal mantissa and an optional exponent. (Python additionally accepts
`inf`/`nan` and digit-group underscores; no code path in this repository
depends on those, and they are modelled as failures.) -/
def pyFloatOfString (s : String) : Option ℚ :=
  let cs := (pyStrip s).data
  let sign : ℚ := if cs.headD ' ' == '-' then -1 else 1
  let cs := if cs.headD ' ' == '-' || cs.headD ' ' == '+' then cs.tail else cs
  let intDigits := cs.takeWhile Char.isDigit
  let cs := cs.dropWhile Char.isDigit
  let fracDigits := if cs.headD ' ' == '.' then cs.tail.takeWhile Char.isDigit else []
  let cs := if cs.headD ' ' == '.' then cs.tail.dropWhile Char.isDigit else cs
  if intDigits.isEmpty && fracDigits.isEmpty then none
  else
    let mant : ℚ := sign * ((digitsToNat intDigits : ℚ) +
      (digitsToNat fracDigits : ℚ) / ((10 : ℚ) ^ fracDigits.length))
    match cs with
    | [] => some mant
    | e :: rest =>
      if e == 'e' || e == 'E' then (parseExp rest).map (fun ex => mant * (10 : ℚ) ^ ex)
      else none

/-- Python `float(v)` on a JSON-derived value: numbers coerce to themselves,
booleans to 0/1 (`bool` is an `int` subclass), strings parse as float
literals; `None`, lists and dicts raise `TypeError` (`none`). -/
def pyFloat : JValue → Option ℚ
  | .jnum q => some q
  | .jbool b => some (if b then 1 else 0)
  | .jstr s => pyFloatOfString s
  | _ => none

/-- The clamp `max(0.0, min(1.0, fv))` of lead_assessor.py:258. -/
def clampQ (q : ℚ) : ℚ := max 0 (min 1 q)

/-- Characters allowed after the first character of a URL scheme. -/
def isSchemeChar (c : Char) : Bool := c.isAlphanum || c == '+' || c == '-' || c == '.'

/-- Drop a leading `scheme:` from a URL when the prefix before the first
colon is a well-formed scheme, as `urllib.parse.urlparse` does. -/
def dropScheme (cs : List Char) : List Char :=
  let pre := cs.takeWhile (fun c => c != ':')
  let post := cs.dropWhile (fun c => c != ':')
  match post with
  | _ :: rest =>
    match pre with
    | [] => cs
    | c0 :: restPre => if c0.isAlpha && restPre.all isSchemeChar then rest else cs
  | [] => cs

/-- The netloc split of `urlsplit`: the text between a leading `//` (after
an optional scheme) and the next `/`, `?` or `#`; empty when the URL has no
`//`. -/
def netlocSplit (url : String) : String :=
  match dropScheme url.data with
  | '/' :: '/' :: rest =>
    String.mk (rest.takeWhile (fun c => !(c == '/' || c == '?' || c == '#')))
  | _ => ""

/-- `urlparse(url).netloc`, fallible: CPython's `urlsplit` raises
`ValueError` ("Invalid IPv6 URL") when the netloc contains `[` without `]`
or `]` without `[` (`none`), e.g. for `http://[::1`. Version-dependent
extra validation of matched-bracket hosts (which lands in the same
`except` branch of the caller) is not modelled. -/
def urlparse_netloc (url : String) : Option String :=
  let netloc := netlocSplit url
  if netloc.data.contains '[' != netloc.data.contains ']' then none
  else some netloc

/-- The per-factor keyword table of lead_assessor.py:94-106, as the lookup
`keywords_map.get(factor)`. -/
def keywords_map (factor : String) : Option (List String) :=
  if factor = "tech_stack" then
    some ["built on", "powered by", "Shopify", "WooCommerce", "WordPress", "Magento", "bigcommerce", "platform"]
  else if factor = "business_age_months" then
    some ["founded", "established", "since", "founded in", "incorporated", "year"]
  else if factor = "merchant_category" then
    some ["subscription", "SaaS", "services", "e-commerce", "online store", "marketplace"]
  else if factor = "company_scale" then
    some ["employees", "team of", "headcount", "startup", "enterprise", "SMB", "small business"]
  else if factor = "integration_readiness_score" then
    some ["API", "integrations", "developer docs", "plugins", "extensions", "Zapier", "webhooks"]
  else if factor = "transaction_intent_score" then
    some ["checkout", "buy now", "pricing", "add to cart", "purchase", "orders", "payment"]
  else if factor = "digital_maturity_score" then
    some ["analytics", "Google Analytics", "tracking", "mobile friendly", "responsive", "PWA", "SEO"]
  else if factor = "web_presence_quality" then
    some ["press", "blog", "mentions", "backlinks", "domain authority", "traffic", "social"]
  else if factor = "fraud_risk_pattern_score" then
    some ["chargeback", "fraud", "complaint", "scam", "refund", "lawsuit", "security breach"]
  else if factor = "traffic_check" then
    some ["monthly visits", "traffic", "SimilarWeb", "Alexa", "semrush", "traffic estimate"]
  else if factor = "brand_search_volume" then
    some ["search volume", "brand searches", "Google Trends", "searches for"]
  else none

/-- Wrap a string in double quotes. -/
def quoteStr (s : String) : String := "\"" ++ s ++ "\""

/-- The `quoted_name` of lead_assessor.py:86 (`if name` is emptiness). -/
def quotedNameOf (name : String) : String := if name ≠ "" then quoteStr name else ""

/-- The `domain` of lead_assessor.py:87-92 (`if source_url` is Python
truthiness: `None` and `""` leave it empty); when `urlparse` raises, the
`except` at lines 91-92 falls back to the WHOLE source URL. -/
def domainOf : Option String → String
  | some u =>
    if u ≠ "" then
      match urlparse_netloc u with
      | some host => host
      | none => u
    else ""
  | none => ""

/-- `keywords_map.get(factor, [factor, "website", "reviews"])[:6]`
(lead_assessor.py:108). -/
def kwsOf (factor : String) : List String :=
  ((keywords_map factor).getD [factor, "website", "reviews"]).take 6

/-- The `or_clause` of lead_assessor.py:110: multi-word keywords (Python
`" " in k`) are quoted, the rest are bare, joined by ` OR `. -/
def orClauseOf (factor : String) : String :=
  String.intercalate " OR "
    ((kwsOf factor).map (fun k => if k.data.contains ' ' then quoteStr k else k))

/-- Lines 111-112: the non-empty pieces among `quoted_name` and
`or_clause`, space-joined and parenthesized. -/
def baseClauseOf (name factor : String) : String :=
  "(" ++ String.intercalate " "
    ([quotedNameOf name, orClauseOf factor].filter (fun p => p ≠ "")) ++ ")"

/-- `_seo_query_for_factor(name, industry, source_url, factor)`
(lead_assessor.py:85-117). `industry` arrives as a (possibly empty) string
from the call site; `source_url` may be Python `None`. -/
def seo_query_for_factor (name : String) (industry : String)
    (source_url : Option String) (factor : String) : String :=
  let q := baseClauseOf name factor
  let q := if industry ≠ "" then q ++ " " ++ industry else q
  if domainOf source_url ≠ "" then q ++ " site:" ++ domainOf source_url else q

/-- Python slicing `x[:n]` on a JSON-derived value: lists and strings
slice; every other type raises `TypeError` (`none`). -/
def pySlice : JValue → Nat → Option JValue
  | .jarr l, n => some (.jarr (l.take n))
  | .jstr s, n => some (.jstr (String.mk (s.data.take n)))
  | _, _ => none

/-- The body of `SerperClient.search` after the HTTP round trip: `resp`
is `none` when the POST, the status check or the JSON decode raised, and
otherwise holds the decoded body. Raises (`none`) when the body is not a
dict or when the selected value cannot be sliced. -/
def serper_search_body (resp : Option JValue) (num_results : Nat) :
    Option JValue :=
  match resp with
  | none => none
  | some data =>
    match data with
    | .jobj d =>
      let results := pyOrValD (pyGet d "organic") (pyOrValD (pyGet d "results") (.jarr []))
      pySlice results num_results
    | _ => none

/-- `SerperClient.search`: the whole body runs under `try`, and any
exception is logged and turned into `[]` (lead_assessor.py:39-41). -/
def serper_search (resp : Option JValue) (num_results : Nat) : JValue :=
  match serper_search_body resp num_results with
  | some v => v
  | none => .jarr []

/-- The columns of the `leads` table that the assessor reads or writes. -/
structure Lead where
  company_name : Option String
  industry : Option String
  source_url : Option String
  lead_score : ℚ
  status : String
  raw_data : Option String

/-- `LeadAssessor.FACTOR_KEYS` (lead_assessor.py:51-63). -/
def FACTOR_KEYS : List String :=
  ["tech_stack", "business_age_months", "merchant_category", "company_scale",
   "integration_readiness_score", "transaction_intent_score",
   "digital_maturity_score", "web_presence_quality",
   "fraud_risk_pattern_score", "traffic_check", "brand_search_volume"]

/-- The seven score-type keys normalized at lead_assessor.py:244-252. -/
def score_keys : List String :=
  ["integration_readiness_score", "transaction_intent_score",
   "digital_maturity_score", "web_presence_quality",
   "fraud_risk_pattern_score", "traffic_check", "brand_search_volume"]

/-- One snippet record built at lead_assessor.py:127-131 from a search
result that is a dict. -/
def snippetOf (q : String) (r : JObj) : JObj :=
  let title := pyOrValD (pyGet r "title")
    (pyOrValD (pyGet r "position") (pyOrValD (pyGet r "snippet_title") (.jstr "")))
  let snippet := pyOrValD (pyGet r "snippet")
    (pyOrValD (pyGet r "summary")
      (pyOrValD (pyGet r "description") (pyOrValD (pyGet r "snippet_text") (.jstr ""))))
  let link := pyOrValD (pyGet r "link")
    (pyOrValD (pyGet r "url") (pyOrValD (pyGet r "source") (.jstr "")))
  [("query", .jstr q), ("title", title), ("snippet", snippet), ("link", link)]

/-- The snippet loop of lead_assessor.py:127-131: each result that is a
dict becomes a snippet record; `r.get(...)` on a non-dict element raises
`AttributeError`, which is NOT caught here and propagates. -/
def snippetsOf (q : String) : List JValue → Except Unit (List JObj)
  | [] => .ok []
  | r :: rest =>
    match r with
    | .jobj d =>
      match snippetsOf q rest with
      | .ok sns => .ok (snippetOf q d :: sns)
      | .error e => .error e
    | _ => .error ()

/-- `LeadAssessor._search_for_factor` (lead_assessor.py:76-132). -/
def search_for_factor (search : String → List JValue) (lead : Lead)
    (factor : String) : Except Unit (List JObj) :=
  let name := pyStrip (lead.company_name.getD "")
  let industry := pyStrip (lead.industry.getD "")
  let q := seo_query_for_factor name industry lead.source_url factor
  snippetsOf q (search q)

/-- The shape dispatch of lead_assessor.py:225-229: a non-empty list
contributes its first element when that is a dict, a dict contributes
itself, anything else gives an empty dict. -/
def parsedFactorOf (res : JValue) : JObj :=
  match res with
  | .jarr (first :: _) =>
    match first with
    | .jobj d => d
    | _ => []
  | .jobj d => d
  | _ => []

/-- The value extraction of lead_assessor.py:231-237: the exact factor key
via an `is None` test, then the Python `or`-chain over `value`, `score`
and `result` (truthiness, not nullness). -/
def extractValue (parsed_factor : JObj) (factor : String) : Option JValue :=
  match pyGet parsed_factor factor with
  | some v => some v
  | none =>
    pyOr (pyGet parsed_factor "value")
      (pyOr (pyGet parsed_factor "score") (pyGet parsed_factor "result"))

/-- The mutable state of the factor loop of `assess_lead`. -/
structure AssessState where
  assessment : JObj
  raw_search_snippets : JObj
  rationales : JObj

/-- One iteration of the factor loop (lead_assessor.py:215-240): search
(exceptions propagate), record the snippets, call the LLM (exceptions are
caught at 221-223 and the factor is skipped), extract and store the value,
record a truthy rationale. -/
def assessFactorStep (search : String → List JValue) (llm : String → Option JValue)
    (lead : Lead) (st : AssessState) (factor : String) : Except Unit AssessState :=
  match search_for_factor search lead factor with
  | .error e => .error e
  | .ok snippets =>
    match llm factor with
    | none =>
      .ok ⟨st.assessment,
           dictSet st.raw_search_snippets factor (.jarr (snippets.map .jobj)),
           st.rationales⟩
    | some res =>
      .ok ⟨(match extractValue (parsedFactorOf res) factor with
            | some v => dictSet st.assessment factor v
            | none => st.assessment),
           dictSet st.raw_search_snippets factor (.jarr (snippets.map .jobj)),
           (if truthyOpt (pyGet (parsedFactorOf res) "rationale") then
              dictSet st.rationales factor
                ((pyGet (parsedFactorOf res) "rationale").getD .jnull)
            else st.rationales)⟩

/-- The factor loop itself. -/
def runFactors (search : String → List JValue) (llm : String → Option JValue)
    (lead : Lead) : List String → AssessState → Except Unit AssessState
  | [], st => .ok st
  | f :: fs, st =>
    match assessFactorStep search llm lead st f with
    | .error e => .error e
    | .ok st' => runFactors search llm lead fs st'

/-- The state accumulated by the factor loop over `FACTOR_KEYS`, starting
from three empty dicts (lead_assessor.py:211-240). -/
def accumulatedAssessment (search : String → List JValue)
    (llm : String → Option JValue) (lead : Lead) : Except Unit AssessState :=
  runFactors search llm lead FACTOR_KEYS ⟨[], [], []⟩

/-- The normalization loop of lead_assessor.py:243-262 over the score
keys: coerce, clamp to [0,1], store back, and collect the clamped value;
coercion failures (and absent keys) are skipped. -/
def normalizePass : List String → JObj → List ℚ → JObj × List ℚ
  | [], a, scores => (a, scores)
  | k :: ks, a, scores =>
    match pyGet a k with
    | none => normalizePass ks a scores
    | some v =>
      match pyFloat v with
      | none => normalizePass ks a scores
      | some fv => normalizePass ks (dictSet a k (.jnum (clampQ fv))) (scores ++ [clampQ fv])

/-- The normalized assessment and the collected numeric scores. -/
def normalizeScores (assessment : JObj) : JObj × List ℚ :=
  normalizePass score_keys assessment []

/-- Lines 242-268 of lead_assessor.py: normalize, fill in `lead_score`
when absent (mean of the collected scores times 100, banker's-rounded;
0 when none were collected), then attach `rationales` and
`raw_search_snippets`. -/
def finalizeAssessment (st : AssessState) : JObj :=
  let pr := normalizeScores st.assessment
  let assessment := pr.1
  let numeric_scores := pr.2
  let assessment :=
    if hasKey assessment "lead_score" then assessment
    else
      dictSet assessment "lead_score"
        (.jnum (if numeric_scores.isEmpty then 0
          else ((pyRound ((numeric_scores.sum / (numeric_scores.length : ℚ)) * 100) : ℤ) : ℚ)))
  let assessment := dictSet assessment "rationales" (.jobj st.rationales)
  dictSet assessment "raw_search_snippets" (.jobj st.raw_search_snippets)

/-- The `{"error": str(e)}` result of the outer handler
(lead_assessor.py:270-272); the message text is abstracted. -/
def errorAssessment : JObj := [("error", .jstr "error")]

/-- `LeadAssessor.assess_lead` (lead_assessor.py:207-272): the whole body
runs under `try`, and any exception that escapes the factor loop or the
aggregation yields the error-only dict. -/
def assess_lead (search : String → List JValue) (llm : String → Option JValue)
    (lead : Lead) : JObj :=
  match accumulatedAssessment search llm lead with
  | .ok st => finalizeAssessment st
  | .error _ => errorAssessment

/-- The `existing` dict of lead_assessor.py:277-282: empty when `raw_data`
is falsy, wrapped as `{"raw": ...}` when unparsable; merging a parsed
non-object at line 284 raises `TypeError` (`Except.error`). -/
def persistExisting (loads : String → Option JValue) (lead : Lead) :
    Except Unit JObj :=
  match lead.raw_data with
  | none => .ok []
  | some s =>
    if s = "" then .ok []
    else
      match loads s with
      | some (.jobj d) => .ok d
      | some _ => .error ()
      | none => .ok [("raw", .jstr s)]

/-- `LeadAssessor.persist_assessment` (lead_assessor.py:274-296), for a run
whose commit succeeds. `loads`/`dumps` are the external `json.loads` and
`json.dumps`; a `TypeError` while merging rolls back at 294-296, leaving
the lead unchanged. The score guard is `isinstance(..., (int, float))`,
which numbers and booleans satisfy (`bool` subclasses `int`). -/
def persist_assessment (loads : String → Option JValue) (dumps : JObj → String)
    (lead : Lead) (assessment : JObj) : Lead :=
  match persistExisting loads lead with
  | .error _ => lead
  | .ok existing =>
    let existing := dictSet existing "assessment" (.jobj assessment)
    let lead := { lead with raw_data := some (dumps existing) }
    let lead :=
      match pyGet assessment "lead_score" with
      | some (.jnum q) => { lead with lead_score := q }
      | some (.jbool b) => { lead with lead_score := if b then 1 else 0 }
      | _ => lead
    { lead with status := "assessed" }

/-- The query filter of `assess_all_leads` (lead_assessor.py:300): the
leads it iterates are those whose status differs from "assessed" (ordering
by creation time does not affect membership and is not modelled). -/
def assess_all_leads_selection (leads : List Lead) : List Lead :=
  leads.filter (fun l => l.status != "assessed")

/-- The overall-score formula in the words of the spec: the banker's-rounded
mean of the collected clamped score-type values times 100, and exactly 0
when no numeric score was collected. -/
def scoreFormulaSpec (a : JObj) : ℚ :=
  if (normalizeScores a).2.isEmpty then 0
  else ((pyRound (((normalizeScores a).2.sum / (((normalizeScores a).2.length : ℕ) : ℚ)) * 100) : ℤ) : ℚ)

/-- The query format exactly as the claim states it: a parenthesized clause
holding the quoted company name (when non-empty) and the OR-joined keyword
clause, then the industry text when present, then a `site:<host>`
restriction ONLY when a source URL was supplied and its host can be parsed;
unknown factors fall back to the factor name plus `website` and `reviews`
(built into `kwsOf`). -/
def seoQueryClaim (name industry : String) (source_url : Option String)
    (factor : String) : String :=
  let clause :=
    if name ≠ "" then "(" ++ quoteStr name ++ " " ++ orClauseOf factor ++ ")"
    else "(" ++ orClauseOf factor ++ ")"
  let q := if industry ≠ "" then clause ++ " " ++ industry else clause
  match source_url with
  | some u =>
    match urlparse_netloc u with
    | some host => if u ≠ "" ∧ host ≠ "" then q ++ " site:" ++ host else q
    | none => q
  | none => q

/-- The query format as amended: same clauses, but when host parsing raises
(a netloc with an unmatched bracket) the WHOLE source URL is appended as
the `site:` value, mirroring the `except` fallback of
lead_assessor.py:91-92. -/
def seoQueryAmended (name industry : String) (source_url : Option String)
    (factor : String) : String :=
  let clause :=
    if name ≠ "" then "(" ++ quoteStr name ++ " " ++ orClauseOf factor ++ ")"
    else "(" ++ orClauseOf factor ++ ")"
  let q := if industry ≠ "" then clause ++ " " ++ industry else clause
  match source_url with
  | some u =>
    if u ≠ "" then
      match urlparse_netloc u with
      | some host => if host ≠ "" then q ++ " site:" ++ host else q
      | none => q ++ " site:" ++ u
    else q
  | none => q

/-- The extraction in the (amended) claim's words: the exact factor key when
present and non-null; otherwise the first truthy value among the present
values of `value`, `score` and `result`; otherwise whatever non-null value
`result` holds, if any. -/
def extractValueAmended (parsed : JObj) (factor : String) : Option JValue :=
  match pyGet parsed factor with
  | some v => some v
  | none =>
    match (([pyGet parsed "value", pyGet parsed "score",
        pyGet parsed "result"].filterMap id).find? truthy) with
    | some v => some v
    | none => pyGet parsed "result"

/-- A concrete lead. -/
def leadAcme : Lead := ⟨some "Acme", some "SaaS", none, 0, "new", none⟩

/-- A search provider returning no results for every query. -/
def searchEmpty : String → List JValue := fun _ => []

/-- A search provider whose result list holds a bare string. -/
def searchStr : String → List JValue := fun _ => [.jstr "x"]

/-- A completion provider whose every call raises. -/
def llmNone : String → Option JValue := fun _ => none

/-- A completion provider answering `{"value": 0, "score": 2}`. -/
def llmValueScore : String → Option JValue :=
  fun _ => some (.jobj [("value", .jnum 0), ("score", .jnum 2)])

/-- A completion provider answering `{"lead_score": 150}`. -/
def llmLeadScore150 : String → Option JValue :=
  fun _ => some (.jobj [("lead_score", .jnum 150)])

/-- A completion provider answering `{"value": 5}`. -/
def llmValue5 : String → Option JValue := fun _ => some (.jobj [("value", .jnum 5)])

/-- A `json.loads` that always fails. -/
def loadsNone : String → Option JValue := fun _ => none

/-- A fixer provider that returns the text `z`. -/
def genSome : String → Option String := fun _ => some "z"

/-- A trivial `json.dumps`. -/
def dumpsEmpty : JObj → String := fun _ => ""

/-- The snippet map accumulated by a full run whose searches all return
nothing. -/
def rawEmptySnippets : JObj :=
  [("tech_stack", .jarr []), ("business_age_months", .jarr []),
   ("merchant_category", .jarr []), ("company_scale", .jarr []),
   ("integration_readiness_score", .jarr []), ("transaction_intent_score", .jarr []),
   ("digital_maturity_score", .jarr []), ("web_presence_quality", .jarr []),
   ("fraud_risk_pattern_score", .jarr []), ("traffic_check", .jarr []),
   ("brand_search_volume", .jarr [])]

/-- The loop state after a run with empty searches and a failing LLM. -/
def stEmptyRun : AssessState := ⟨[], rawEmptySnippets, []⟩

/-- The assessment accumulated when every completion is `{"value": 5}`. -/
def assessmentAll5 : JObj :=
  [("tech_stack", .jnum 5), ("business_age_months", .jnum 5),
   ("merchant_category", .jnum 5), ("company_scale", .jnum 5),
   ("integration_readiness_score", .jnum 5), ("transaction_intent_score", .jnum 5),
   ("digital_maturity_score", .jnum 5), ("web_presence_quality", .jnum 5),
   ("fraud_risk_pattern_score", .jnum 5), ("traffic_check", .jnum 5),
   ("brand_search_volume", .jnum 5)]

/-- The loop state after a run with empty searches and `{"value": 5}`
completions. -/
def stAll5Run : AssessState := ⟨assessmentAll5, rawEmptySnippets, []⟩

/-- The extraction rule exactly as claim C1 states it: the first non-null
value among the factor key, `value`, `score` and `result`, in that order. -/
def firstNonNullClaim (parsed : JObj) (factor : String) : Option JValue :=
  match pyGet parsed factor with
  | some v => some v
  | none =>
    match pyGet parsed "value" with
    | some v => some v
    | none =>
      match pyGet parsed "score" with
      | some v => some v
      | none => pyGet parsed "result"

/-! Theorems. -/

@[simp] theorem pyGet_nil (k : String) : pyGet [] k = none := rfl

@[simp] theorem hasKey_nil (k : String) : hasKey [] k = false := rfl

theorem pyGet_dictSet (d : JObj) (k k' : String) (v : JValue) :
    pyGet (dictSet d k v) k' =
      if k = k' then (match v with | .jnull => none | v => some v)
      else pyGet d k' := by
  induction d with
  | nil =>
    by_cases h : k = k' <;> simp [dictSet, pyGet, h]
  | cons p rest ih =>
    obtain ⟨k₀, v₀⟩ := p
    by_cases h0 : k₀ = k
    · subst h0
      by_cases h : k₀ = k' <;> simp [dictSet, pyGet, h]
    · by_cases h1 : k₀ = k'
      · subst h1
        have hk : ¬ k = k₀ := fun e => h0 e.symm
        simp [dictSet, pyGet, h0, hk]
      · simp [dictSet, pyGet, h0, h1, ih]

theorem hasKey_dictSet (d : JObj) (k k' : String) (v : JValue) :
    hasKey (dictSet d k v) k' = (k = k' || hasKey d k') := by
  induction d with
  | nil => simp [dictSet, hasKey]
  | cons p rest ih =>
    obtain ⟨k₀, v₀⟩ := p
    by_cases h0 : k₀ = k
    · subst h0
      simp [dictSet, hasKey]
    · by_cases h : k₀ = k'
      · subst h
        simp [dictSet, hasKey, h0]
      · simp [dictSet, hasKey, h0, h, ih]

theorem hasKey_dictSet_of_hasKey {d : JObj} {k : String} (k' : String) (v : JValue)
    (h : hasKey d k = true) : hasKey (dictSet d k' v) k = true := by
  rw [hasKey_dictSet]
  simp [h]

theorem hasKey_of_pyGet_some {d : JObj} {k : String} {v : JValue}
    (h : pyGet d k = some v) : hasKey d k = true := by
  induction d with
  | nil => simp [pyGet] at h
  | cons p rest ih =>
    obtain ⟨k₀, v₀⟩ := p
    by_cases h0 : k₀ = k
    · simp [hasKey, h0]
    · simp only [pyGet, h0, if_false] at h
      simp [hasKey, h0, ih h]

theorem pyGet_ne_some_jnull (d : JObj) (k : String) :
    pyGet d k ≠ some JValue.jnull := by
  induction d with
  | nil => simp [pyGet]
  | cons p rest ih =>
    obtain ⟨k₀, v₀⟩ := p
    by_cases h0 : k₀ = k
    · cases v₀ <;> simp [pyGet, h0]
    · simpa [pyGet, h0] using ih

theorem clampQ_nonneg (q : ℚ) : 0 ≤ clampQ q := le_max_left 0 _

theorem clampQ_le_one (q : ℚ) : clampQ q ≤ 1 := by
  apply max_le
  · norm_num
  · exact min_le_left 1 q

theorem clampQ_of_neg {q : ℚ} (h : q < 0) : clampQ q = 0 := by
  unfold clampQ
  rw [min_eq_right (le_of_lt (lt_of_lt_of_le h (by norm_num)))]
  exact max_eq_left (le_of_lt h)

theorem clampQ_of_gt_one {q : ℚ} (h : 1 < q) : clampQ q = 1 := by
  unfold clampQ
  rw [min_eq_left (le_of_lt h)]
  exact max_eq_right (by norm_num)

/-! General lemmas about the factor loop and the normalization pass. -/
theorem assessFactorStep_ok_assessment {search : String → List JValue}
    {llm : String → Option JValue} {lead : Lead} {st : AssessState} {f : String}
    {st' : AssessState}
    (h : assessFactorStep search llm lead st f = .ok st') :
    st'.assessment = st.assessment ∨
      ∃ v, st'.assessment = dictSet st.assessment f v := by
  unfold assessFactorStep at h
  cases hs : search_for_factor search lead f with
  | error e => rw [hs] at h; cases h
  | ok snippets =>
    rw [hs] at h
    cases hl : llm f with
    | none =>
      rw [hl] at h
      cases h
      left; rfl
    | some res =>
      rw [hl] at h
      cases h
      cases he : extractValue (parsedFactorOf res) f with
      | none => left; simp [he]
      | some v => right; exact ⟨v, by simp [he]⟩

theorem runFactors_hasKey {search : String → List JValue}
    {llm : String → Option JValue} {lead : Lead} :
    ∀ (L : List String) (st st' : AssessState),
      runFactors search llm lead L st = .ok st' →
      ∀ k, hasKey st'.assessment k = true →
        hasKey st.assessment k = true ∨ k ∈ L := by
  intro L
  induction L with
  | nil =>
    intro st st' h k hk
    cases h
    exact .inl hk
  | cons f fs ih =>
    intro st st' h k hk
    unfold runFactors at h
    cases hstep : assessFactorStep search llm lead st f with
    | error e => rw [hstep] at h; cases h
    | ok st₁ =>
      rw [hstep] at h
      rcases ih st₁ st' h k hk with h1 | h1
      · rcases assessFactorStep_ok_assessment hstep with h2 | ⟨v, h2⟩
        · rw [h2] at h1; exact .inl h1
        · rw [h2, hasKey_dictSet] at h1
          rcases Bool.or_eq_true_iff.mp h1 with h3 | h3
          · right
            simp only [decide_eq_true_eq] at h3
            rw [h3]
            exact List.mem_cons_self k fs
          · exact .inl h3
      · exact .inr (List.mem_cons_of_mem f h1)

theorem normalizePass_cons_none {k : String} {a : JObj} (ks : List String)
    (sc : List ℚ) (hg : pyGet a k = none) :
    normalizePass (k :: ks) a sc = normalizePass ks a sc := by
  conv_lhs => unfold normalizePass
  simp only [hg]

theorem normalizePass_cons_fail {k : String} {a : JObj} {v : JValue}
    (ks : List String) (sc : List ℚ) (hg : pyGet a k = some v)
    (hf : pyFloat v = none) :
    normalizePass (k :: ks) a sc = normalizePass ks a sc := by
  conv_lhs => unfold normalizePass
  simp only [hg, hf]

theorem normalizePass_cons_set {k : String} {a : JObj} {v : JValue} {fv : ℚ}
    (ks : List String) (sc : List ℚ) (hg : pyGet a k = some v)
    (hf : pyFloat v = some fv) :
    normalizePass (k :: ks) a sc =
      normalizePass ks (dictSet a k (.jnum (clampQ fv))) (sc ++ [clampQ fv]) := by
  conv_lhs => unfold normalizePass
  simp only [hg, hf]

theorem normalizePass_hasKey :
    ∀ (ks : List String) (a : JObj) (sc : List ℚ) (k : String),
      hasKey (normalizePass ks a sc).1 k = hasKey a k := by
  intro ks
  induction ks with
  | nil => intro a sc k; rfl
  | cons k' ks ih =>
    intro a sc k
    cases hg : pyGet a k' with
    | none => rw [normalizePass_cons_none ks sc hg, ih]
    | some v =>
      cases hf : pyFloat v with
      | none => rw [normalizePass_cons_fail ks sc hg hf, ih]
      | some fv =>
        rw [normalizePass_cons_set ks sc hg hf, ih, hasKey_dictSet]
        by_cases hk : k' = k
        · subst hk
          simp [hasKey_of_pyGet_some hg]
        · simp [hk]

theorem normalizePass_pyGet_notMem :
    ∀ (ks : List String) (a : JObj) (sc : List ℚ) (k : String), k ∉ ks →
      pyGet (normalizePass ks a sc).1 k = pyGet a k := by
  intro ks
  induction ks with
  | nil => intro a sc k _; rfl
  | cons k' ks ih =>
    intro a sc k hk
    have hk1 : k ≠ k' := fun e => hk (e ▸ List.mem_cons_self k' ks)
    have hk2 : k ∉ ks := fun e => hk (List.mem_cons_of_mem k' e)
    cases hg : pyGet a k' with
    | none => rw [normalizePass_cons_none ks sc hg, ih _ _ _ hk2]
    | some v =>
      cases hf : pyFloat v with
      | none => rw [normalizePass_cons_fail ks sc hg hf, ih _ _ _ hk2]
      | some fv =>
        rw [normalizePass_cons_set ks sc hg hf, ih _ _ _ hk2, pyGet_dictSet]
        simp [Ne.symm hk1]

theorem normalizePass_clamped :
    ∀ (ks : List String) (a : JObj) (sc : List ℚ) (k : String) (v : JValue) (q : ℚ),
      ks.Nodup → k ∈ ks → pyGet a k = some v → pyFloat v = some q →
      pyGet (normalizePass ks a sc).1 k = some (.jnum (clampQ q)) := by
  intro ks
  induction ks with
  | nil => intro a sc k v q _ hk; cases hk
  | cons k' ks ih =>
    intro a sc k v q hnd hk hg hf
    rcases List.nodup_cons.mp hnd with ⟨hk', hnd'⟩
    by_cases he : k = k'
    · subst he
      rw [normalizePass_cons_set ks sc hg hf,
        normalizePass_pyGet_notMem ks _ _ k hk', pyGet_dictSet]
      simp
    · have hkmem : k ∈ ks := by
        rcases List.mem_cons.mp hk with h | h
        · exact absurd h he
        · exact h
      cases hg' : pyGet a k' with
      | none => rw [normalizePass_cons_none ks sc hg']; exact ih a sc k v q hnd' hkmem hg hf
      | some v' =>
        cases hf' : pyFloat v' with
        | none =>
          rw [normalizePass_cons_fail ks sc hg' hf']
          exact ih a sc k v q hnd' hkmem hg hf
        | some fv' =>
          rw [normalizePass_cons_set ks sc hg' hf']
          apply ih _ _ k v q hnd' hkmem _ hf
          rw [pyGet_dictSet]
          simp [Ne.symm he, hg]

theorem snippetsOf_ok_of_dicts {q : String} :
    ∀ (l : List JValue), (∀ r ∈ l, ∃ d, r = JValue.jobj d) →
      ∃ sns, snippetsOf q l = .ok sns := by
  intro l
  induction l with
  | nil => intro _; exact ⟨[], rfl⟩
  | cons r rest ih =>
    intro h
    obtain ⟨d, rfl⟩ := h r (List.mem_cons_self r rest)
    obtain ⟨sns, hsns⟩ := ih (fun r hr => h r (List.mem_cons_of_mem _ hr))
    exact ⟨snippetOf q d :: sns, by unfold snippetsOf; rw [hsns]⟩

theorem search_for_factor_ok_of_dicts {search : String → List JValue}
    {lead : Lead} {factor : String}
    (hs : ∀ q r, r ∈ search q → ∃ d, r = JValue.jobj d) :
    ∃ sn, search_for_factor search lead factor = .ok sn := by
  unfold search_for_factor
  exact snippetsOf_ok_of_dicts _ (hs _)

theorem assessFactorStep_ok_of_search_ok {search : String → List JValue}
    {llm : String → Option JValue} {lead : Lead} {st : AssessState}
    {f : String} {sn : List JObj}
    (hsn : search_for_factor search lead f = .ok sn) :
    ∃ st', assessFactorStep search llm lead st f = .ok st' := by
  unfold assessFactorStep
  rw [hsn]
  cases llm f with
  | none => exact ⟨_, rfl⟩
  | some res => exact ⟨_, rfl⟩

theorem runFactors_ok_of_dicts {search : String → List JValue}
    {llm : String → Option JValue} {lead : Lead}
    (hs : ∀ q r, r ∈ search q → ∃ d, r = JValue.jobj d) :
    ∀ (L : List String) (st : AssessState),
      ∃ st', runFactors search llm lead L st = .ok st' := by
  intro L
  induction L with
  | nil => intro st; exact ⟨st, rfl⟩
  | cons f fs ih =>
    intro st
    obtain ⟨sn, hsn⟩ := @search_for_factor_ok_of_dicts search lead f hs
    obtain ⟨st₁, hst₁⟩ := @assessFactorStep_ok_of_search_ok search llm lead st f sn hsn
    obtain ⟨st', hst'⟩ := ih st₁
    refine ⟨st', ?_⟩
    unfold runFactors
    rw [hst₁]
    exact hst'

theorem score_keys_nodup : score_keys.Nodup := by decide

theorem finalize_lead_score {st : AssessState}
    (h : hasKey st.assessment "lead_score" = false) :
    pyGet (finalizeAssessment st) "lead_score" =
      some (.jnum (scoreFormulaSpec st.assessment)) := by
  unfold finalizeAssessment
  have hk : hasKey (normalizeScores st.assessment).1 "lead_score" = false := by
    unfold normalizeScores
    rw [normalizePass_hasKey]
    exact h
  simp only [hk, Bool.false_eq_true, if_false]
  rw [pyGet_dictSet, pyGet_dictSet, pyGet_dictSet]
  rw [if_neg (by decide : ("raw_search_snippets" : String) = "lead_score" -> False)]
  rw [if_neg (by decide : ("rationales" : String) = "lead_score" -> False)]
  rw [if_pos rfl]
  rfl

theorem finalize_hasKey_rationales (st : AssessState) :
    hasKey (finalizeAssessment st) "rationales" = true := by
  unfold finalizeAssessment
  rw [hasKey_dictSet, hasKey_dictSet]
  norm_num

theorem finalize_hasKey_raw (st : AssessState) :
    hasKey (finalizeAssessment st) "raw_search_snippets" = true := by
  unfold finalizeAssessment
  rw [hasKey_dictSet]
  norm_num

theorem finalize_hasKey_of_not_special {st : AssessState} {k : String}
    (h1 : k ≠ "lead_score") (h2 : k ≠ "rationales")
    (h3 : k ≠ "raw_search_snippets") :
    hasKey (finalizeAssessment st) k = hasKey st.assessment k := by
  unfold finalizeAssessment
  rw [hasKey_dictSet, hasKey_dictSet]
  simp only [Ne.symm h2, Ne.symm h3, decide_eq_true_eq, false_or, decide_False]
  by_cases hls : hasKey (normalizeScores st.assessment).1 "lead_score"
  · simp only [hls, if_true]
    unfold normalizeScores
    rw [normalizePass_hasKey]
    simp
  · simp only [hls, Bool.false_eq_true, if_false, hasKey_dictSet,
      Ne.symm h1, decide_False, false_or]
    unfold normalizeScores
    rw [normalizePass_hasKey]
    simp

theorem finalize_pyGet_score_key {st : AssessState} {k : String} {v : JValue}
    {q : ℚ} (hmem : k ∈ score_keys) (hv : pyGet st.assessment k = some v)
    (hq : pyFloat v = some q) :
    pyGet (finalizeAssessment st) k = some (.jnum (clampQ q)) := by
  have hne1 : k ≠ "lead_score" := by
    revert hmem
    simp [score_keys]
    rintro (rfl | rfl | rfl | rfl | rfl | rfl | rfl) <;> decide
  have hne2 : k ≠ "rationales" := by
    revert hmem
    simp [score_keys]
    rintro (rfl | rfl | rfl | rfl | rfl | rfl | rfl) <;> decide
  have hne3 : k ≠ "raw_search_snippets" := by
    revert hmem
    simp [score_keys]
    rintro (rfl | rfl | rfl | rfl | rfl | rfl | rfl) <;> decide
  have hnorm : pyGet (normalizeScores st.assessment).1 k = some (.jnum (clampQ q)) :=
    normalizePass_clamped score_keys st.assessment [] k v q score_keys_nodup hmem hv hq
  unfold finalizeAssessment
  rw [pyGet_dictSet, pyGet_dictSet]
  simp only [Ne.symm hne2, Ne.symm hne3, if_false]
  by_cases hls : hasKey (normalizeScores st.assessment).1 "lead_score"
  · simp only [hls, if_true]
    exact hnorm
  · simp only [hls, Bool.false_eq_true, if_false, pyGet_dictSet, Ne.symm hne1]
    exact hnorm

/-! Lemmas for the query-builder claim. -/
theorem intercalate_pair (s a b : String) :
    String.intercalate s [a, b] = a ++ s ++ b := rfl

theorem intercalate_single (s a : String) :
    String.intercalate s [a] = a := rfl

theorem append_ne_empty_right (a b : String) (h : b ≠ "") : a ++ b ≠ "" := by
  intro he
  apply h
  rw [String.ext_iff] at he ⊢
  simp only [String.data_append] at he
  rcases List.append_eq_nil.mp he with ⟨_, h2⟩
  exact h2

theorem append_ne_empty_left (a b : String) (h : a ≠ "") : a ++ b ≠ "" := by
  intro he
  apply h
  rw [String.ext_iff] at he ⊢
  simp only [String.data_append] at he
  rcases List.append_eq_nil.mp he with ⟨h1, _⟩
  exact h1

theorem quoteStr_ne_empty (s : String) : quoteStr s ≠ "" :=
  append_ne_empty_right _ _ (by decide)

theorem intercalate_go_ne_empty (s : String) :
    ∀ (as : List String) (acc : String), (acc ≠ "" ∨ ∃ x ∈ as, x ≠ "") →
      String.intercalate.go acc s as ≠ "" := by
  intro as
  induction as with
  | nil =>
    intro acc h
    rcases h with h | ⟨x, hx, _⟩
    · exact h
    · cases hx
  | cons a as ih =>
    intro acc h
    show String.intercalate.go (acc ++ s ++ a) s as ≠ ""
    apply ih
    rcases h with h | ⟨x, hx, hne⟩
    · exact .inl (append_ne_empty_left _ _ (append_ne_empty_left _ _ h))
    · rcases List.mem_cons.mp hx with rfl | hx'
      · exact .inl (append_ne_empty_right _ _ hne)
      · exact .inr ⟨x, hx', hne⟩

theorem intercalate_ne_empty (s : String) (l : List String)
    (h : ∃ x ∈ l, x ≠ "") : String.intercalate s l ≠ "" := by
  cases l with
  | nil =>
    obtain ⟨x, hx, _⟩ := h
    cases hx
  | cons a as =>
    show String.intercalate.go a s as ≠ ""
    apply intercalate_go_ne_empty
    obtain ⟨x, hx, hne⟩ := h
    rcases List.mem_cons.mp hx with rfl | hx'
    · exact .inl hne
    · exact .inr ⟨x, hx', hne⟩

theorem exists_ne_empty_kw (factor : String) : ∃ k ∈ kwsOf factor, k ≠ "" := by
  by_cases h1 : factor = "tech_stack"
  · subst h1; decide
  by_cases h2 : factor = "business_age_months"
  · subst h2; decide
  by_cases h3 : factor = "merchant_category"
  · subst h3; decide
  by_cases h4 : factor = "company_scale"
  · subst h4; decide
  by_cases h5 : factor = "integration_readiness_score"
  · subst h5; decide
  by_cases h6 : factor = "transaction_intent_score"
  · subst h6; decide
  by_cases h7 : factor = "digital_maturity_score"
  · subst h7; decide
  by_cases h8 : factor = "web_presence_quality"
  · subst h8; decide
  by_cases h9 : factor = "fraud_risk_pattern_score"
  · subst h9; decide
  by_cases h10 : factor = "traffic_check"
  · subst h10; decide
  by_cases h11 : factor = "brand_search_volume"
  · subst h11; decide
  unfold kwsOf keywords_map
  rw [if_neg h1, if_neg h2, if_neg h3, if_neg h4, if_neg h5, if_neg h6,
    if_neg h7, if_neg h8, if_neg h9, if_neg h10, if_neg h11]
  refine ⟨"website", ?_, by decide⟩
  exact List.mem_cons_of_mem _ (List.mem_cons_self _ _)

theorem orClauseOf_ne_empty (factor : String) : orClauseOf factor ≠ "" := by
  obtain ⟨k, hk, hne⟩ := exists_ne_empty_kw factor
  unfold orClauseOf
  apply intercalate_ne_empty
  refine ⟨if k.data.contains ' ' then quoteStr k else k, List.mem_map_of_mem _ hk, ?_⟩
  by_cases hc : k.data.contains ' '
  · simp only [hc, if_true]
    exact quoteStr_ne_empty k
  · simp only [hc, Bool.false_eq_true, if_false]
    exact hne

theorem baseClauseOf_eq (name factor : String) :
    baseClauseOf name factor =
      if name ≠ "" then "(" ++ quoteStr name ++ " " ++ orClauseOf factor ++ ")"
      else "(" ++ orClauseOf factor ++ ")" := by
  unfold baseClauseOf quotedNameOf
  by_cases hn : name = ""
  · simp only [hn, ne_eq, not_true_eq_false, if_false]
    rw [show (["", orClauseOf factor].filter (fun p => p ≠ "")) =
      [orClauseOf factor].filter (fun p => p ≠ "") from by
        simp [List.filter]]
    rw [show ([orClauseOf factor].filter (fun p => p ≠ "")) = [orClauseOf factor] from by
      simp [List.filter, orClauseOf_ne_empty factor]]
    rw [intercalate_single]
  · simp only [hn, ne_eq, not_false_eq_true, if_true]
    rw [show ([quoteStr name, orClauseOf factor].filter (fun p => p ≠ "")) =
      [quoteStr name, orClauseOf factor] from by
        simp [List.filter, quoteStr_ne_empty name, orClauseOf_ne_empty factor]]
    rw [intercalate_pair]
    simp [String.append_assoc]

theorem domain_step_eq (source_url : Option String) (q : String) :
    (if domainOf source_url ≠ "" then q ++ " site:" ++ domainOf source_url else q) =
      (match source_url with
       | some u =>
         if u ≠ "" then
           match urlparse_netloc u with
           | some host => if host ≠ "" then q ++ " site:" ++ host else q
           | none => q ++ " site:" ++ u
         else q
       | none => q) := by
  cases source_url with
  | none => simp [domainOf]
  | some u =>
    by_cases hu : u = ""
    · subst hu
      simp [domainOf]
    · cases hn : urlparse_netloc u with
      | none => simp [domainOf, hu, hn]
      | some host =>
        by_cases hh : host = "" <;> simp [domainOf, hu, hn, hh]

theorem extractValue_eq_amended (parsed : JObj) (factor : String) :
    extractValue parsed factor = extractValueAmended parsed factor := by
  unfold extractValue extractValueAmended
  cases pyGet parsed factor with
  | some v => rfl
  | none =>
    cases hv : pyGet parsed "value" with
    | some v =>
      cases htv : truthy v with
      | true => simp [pyOr, List.filterMap, List.find?, htv]
      | false =>
        cases hs : pyGet parsed "score" with
        | some w =>
          cases htw : truthy w with
          | true => simp [pyOr, List.filterMap, List.find?, htv, htw]
          | false =>
            cases hr : pyGet parsed "result" with
            | some x =>
              cases htx : truthy x with
              | true => simp [pyOr, List.filterMap, List.find?, htv, htw, htx, hr]
              | false => simp [pyOr, List.filterMap, List.find?, htv, htw, htx, hr]
            | none => simp [pyOr, List.filterMap, List.find?, htv, htw, hr]
        | none =>
          cases hr : pyGet parsed "result" with
          | some x =>
            cases htx : truthy x with
            | true => simp [pyOr, List.filterMap, List.find?, htv, htx, hr]
            | false => simp [pyOr, List.filterMap, List.find?, htv, htx, hr]
          | none => simp [pyOr, List.filterMap, List.find?, htv, hr]
    | none =>
      cases hs : pyGet parsed "score" with
      | some w =>
        cases htw : truthy w with
        | true => simp [pyOr, List.filterMap, List.find?, htw]
        | false =>
          cases hr : pyGet parsed "result" with
          | some x =>
            cases htx : truthy x with
            | true => simp [pyOr, List.filterMap, List.find?, htw, htx, hr]
            | false => simp [pyOr, List.filterMap, List.find?, htw, htx, hr]
          | none => simp [pyOr, List.filterMap, List.find?, htw, hr]
      | none =>
        cases hr : pyGet parsed "result" with
        | some x =>
          cases htx : truthy x with
          | true => simp [pyOr, List.filterMap, List.find?, htx, hr]
          | false => simp [pyOr, List.filterMap, List.find?, htx, hr]
        | none => simp [pyOr, List.filterMap, List.find?, hr]

/-- C1 counterexample: for the completion `{"value": 0, "score": 2}` on the
factor `merchant_category`, the claim's first-non-null rule selects `0` (the
value under `value`), but the code's Python `or`-chain skips the falsy `0`
and the assessment stores `2`. -/
theorem C1_counterexample :
    firstNonNullClaim [("value", JValue.jnum 0), ("score", JValue.jnum 2)]
        "merchant_category" = some (JValue.jnum 0) ∧
    pyGet (assess_lead searchEmpty llmValueScore leadAcme) "merchant_category" =
      some (JValue.jnum 2) ∧
    some (JValue.jnum (0 : ℚ)) ≠ some (JValue.jnum (2 : ℚ)) :=
  ⟨rfl, rfl, by
    intro h
    simp only [Option.some.injEq, JValue.jnum.injEq] at h
    norm_num at h⟩

/-- C1 (amended): when a factor's completion parses to a JSON object and the
search step succeeded, the loop stores under the factor key exactly: the
value at the exact factor-name key when present and non-null, otherwise the
first truthy value among `value`, `score` and `result`, otherwise the
non-null value at `result` if any; nothing is stored when that yields
Python `None`. -/
theorem C1_extraction_rule (search : String → List JValue)
    (llm : String → Option JValue) (lead : Lead) (st : AssessState)
    (f : String) (sn : List JObj) (res : JValue)
    (hsn : search_for_factor search lead f = .ok sn)
    (hres : llm f = some res) :
    assessFactorStep search llm lead st f =
      .ok ⟨(match extractValueAmended (parsedFactorOf res) f with
            | some v => dictSet st.assessment f v
            | none => st.assessment),
           dictSet st.raw_search_snippets f (.jarr (sn.map .jobj)),
           (if truthyOpt (pyGet (parsedFactorOf res) "rationale") then
              dictSet st.rationales f ((pyGet (parsedFactorOf res) "rationale").getD .jnull)
            else st.rationales)⟩ := by
  unfold assessFactorStep
  rw [hsn, hres]
  rw [show extractValueAmended (parsedFactorOf res) f = extractValue (parsedFactorOf res) f
    from (extractValue_eq_amended _ _).symm]

/-- C1 witness: the amended rule applied to the counterexample run stores
the truthy `2` under `merchant_category`. -/
theorem C1_extraction_rule_witness :
    assessFactorStep searchEmpty llmValueScore leadAcme ⟨[], [], []⟩
        "merchant_category" =
      .ok ⟨[("merchant_category", JValue.jnum 2)],
           [("merchant_category", JValue.jarr [])], []⟩ := by
  have h := C1_extraction_rule searchEmpty llmValueScore leadAcme ⟨[], [], []⟩
    "merchant_category" []
    (JValue.jobj [("value", JValue.jnum 0), ("score", JValue.jnum 2)]) rfl rfl
  exact h.trans rfl

/-- C2 counterexample: every per-factor completion supplies
`lead_score: 150`, yet the aggregator returns `lead_score = 0` (the derived
default), not `150`: the per-factor extraction never reads a `lead_score`
key, so a model-supplied overall score is ignored. -/
theorem C2_counterexample :
    pyGet (parsedFactorOf (JValue.jobj [("lead_score", JValue.jnum 150)]))
        "lead_score" = some (JValue.jnum 150) ∧
    pyGet (assess_lead searchEmpty llmLeadScore150 leadAcme) "lead_score" =
      some (JValue.jnum 0) ∧
    some (JValue.jnum (0 : ℚ)) ≠ some (JValue.jnum (150 : ℚ)) :=
  ⟨rfl, rfl, by
    intro h
    simp only [Option.some.injEq, JValue.jnum.injEq] at h
    norm_num at h⟩

/-- C2 (amended): the accumulated assessment never holds a `lead_score` key
(the loop only ever stores the 11 factor keys), so the guard
`if "lead_score" not in assessment` always fires and the returned
`lead_score` is always the derived value — the rounded mean of the
collected scores times 100, or 0 — never a model-supplied one. -/
theorem C2_lead_score_always_derived (search : String → List JValue)
    (llm : String → Option JValue) (lead : Lead) (st : AssessState)
    (h : accumulatedAssessment search llm lead = .ok st) :
    hasKey st.assessment "lead_score" = false ∧
    pyGet (assess_lead search llm lead) "lead_score" =
      some (.jnum (scoreFormulaSpec st.assessment)) := by
  have hk : hasKey st.assessment "lead_score" = false := by
    cases hb : hasKey st.assessment "lead_score" with
    | false => rfl
    | true =>
      rcases runFactors_hasKey FACTOR_KEYS ⟨[], [], []⟩ st h "lead_score" hb with h1 | h1
      · simp at h1
      · revert h1; decide
  refine ⟨hk, ?_⟩
  unfold assess_lead
  rw [h]
  exact finalize_lead_score hk

/-- C2 witness: a run with empty searches and a failing LLM accumulates no
`lead_score` key and returns the derived score. -/
theorem C2_lead_score_always_derived_witness :
    hasKey stEmptyRun.assessment "lead_score" = false ∧
    pyGet (assess_lead searchEmpty llmNone leadAcme) "lead_score" =
      some (.jnum (scoreFormulaSpec stEmptyRun.assessment)) :=
  C2_lead_score_always_derived searchEmpty llmNone leadAcme stEmptyRun rfl

/-- C3: when the accumulated assessment holds no `lead_score` key, the
returned `lead_score` is the banker's-rounded mean of the clamped collected
score-type values times 100, and exactly 0 when no numeric score was
collected. -/
theorem C3_lead_score_formula (search : String → List JValue)
    (llm : String → Option JValue) (lead : Lead) (st : AssessState)
    (h : accumulatedAssessment search llm lead = .ok st)
    (hk : hasKey st.assessment "lead_score" = false) :
    pyGet (assess_lead search llm lead) "lead_score" =
      some (.jnum (scoreFormulaSpec st.assessment)) ∧
    ((normalizeScores st.assessment).2 = [] → scoreFormulaSpec st.assessment = 0) := by
  constructor
  · unfold assess_lead
    rw [h]
    exact finalize_lead_score hk
  · intro hz
    unfold scoreFormulaSpec
    rw [hz]
    simp

/-- C3 witness: the empty run collects no numeric score and returns
`lead_score = 0`. -/
theorem C3_lead_score_formula_witness :
    pyGet (assess_lead searchEmpty llmNone leadAcme) "lead_score" =
      some (.jnum (scoreFormulaSpec stEmptyRun.assessment)) ∧
    scoreFormulaSpec stEmptyRun.assessment = 0 := by
  have h := C3_lead_score_formula searchEmpty llmNone leadAcme stEmptyRun rfl rfl
  exact ⟨h.1, h.2 rfl⟩

/-! Persistence lemmas. -/
theorem persist_lead_score_of_none {loads : String → Option JValue}
    {dumps : JObj → String} {lead : Lead} {a : JObj}
    (h : pyGet a "lead_score" = none) :
    (persist_assessment loads dumps lead a).lead_score = lead.lead_score := by
  unfold persist_assessment
  cases he : persistExisting loads lead with
  | error e => rfl
  | ok existing =>
    rw [h]

theorem persist_lead_score_cases (loads : String → Option JValue)
    (dumps : JObj → String) (lead : Lead) (a : JObj) :
    (persist_assessment loads dumps lead a).lead_score = lead.lead_score ∨
    ∃ v, pyGet a "lead_score" = some v ∧
      ((∃ q, v = JValue.jnum q) ∨ (∃ b, v = JValue.jbool b)) := by
  cases hls : pyGet a "lead_score" with
  | none => exact .inl (persist_lead_score_of_none hls)
  | some v =>
    cases v with
    | jnum q => exact .inr ⟨JValue.jnum q, rfl, .inl ⟨q, rfl⟩⟩
    | jbool b => exact .inr ⟨JValue.jbool b, rfl, .inr ⟨b, rfl⟩⟩
    | jnull =>
      exact absurd hls (pyGet_ne_some_jnull a "lead_score")
    | jstr s =>
      left
      unfold persist_assessment
      cases he : persistExisting loads lead with
      | error e => rfl
      | ok existing => rw [hls]
    | jarr l =>
      left
      unfold persist_assessment
      cases he : persistExisting loads lead with
      | error e => rfl
      | ok existing => rw [hls]
    | jobj d =>
      left
      unfold persist_assessment
      cases he : persistExisting loads lead with
      | error e => rfl
      | ok existing => rw [hls]

theorem persist_status_of_ok {loads : String → Option JValue}
    {dumps : JObj → String} {lead : Lead} {a : JObj} {ex : JObj}
    (he : persistExisting loads lead = .ok ex) :
    (persist_assessment loads dumps lead a).status = "assessed" := by
  unfold persist_assessment
  rw [he]

theorem persist_raw_of_ok {loads : String → Option JValue}
    {dumps : JObj → String} {lead : Lead} {a : JObj} {ex : JObj}
    (he : persistExisting loads lead = .ok ex) :
    (persist_assessment loads dumps lead a).raw_data =
      some (dumps (dictSet ex "assessment" (.jobj a))) := by
  unfold persist_assessment
  rw [he]
  cases hls : pyGet a "lead_score" with
  | none => rfl
  | some v => cases v <;> rfl

/-- C4: every score-type factor value that coerces to a float is stored
clamped into [0, 1]: below 0 becomes 0, above 1 becomes 1. -/
theorem C4_scores_clamped (search : String → List JValue)
    (llm : String → Option JValue) (lead : Lead) (st : AssessState)
    (k : String) (v : JValue) (q : ℚ)
    (h : accumulatedAssessment search llm lead = .ok st)
    (hk : k ∈ score_keys)
    (hv : pyGet st.assessment k = some v)
    (hq : pyFloat v = some q) :
    pyGet (assess_lead search llm lead) k = some (.jnum (clampQ q)) ∧
    0 ≤ clampQ q ∧ clampQ q ≤ 1 ∧
    (q < 0 → clampQ q = 0) ∧ (1 < q → clampQ q = 1) := by
  refine ⟨?_, clampQ_nonneg q, clampQ_le_one q,
    fun h' => clampQ_of_neg h', fun h' => clampQ_of_gt_one h'⟩
  unfold assess_lead
  rw [h]
  exact finalize_pyGet_score_key hk hv hq

/-- C4 witness: a run whose completions all answer `{"value": 5}` stores
`traffic_check = 1` (5 clamped to the upper bound). -/
theorem C4_scores_clamped_witness :
    pyGet (assess_lead searchEmpty llmValue5 leadAcme) "traffic_check" =
      some (.jnum (clampQ 5)) ∧ 0 ≤ clampQ 5 ∧ clampQ 5 ≤ 1 ∧ clampQ 5 = 1 := by
  have h := C4_scores_clamped searchEmpty llmValue5 leadAcme stAll5Run
    "traffic_check" (.jnum 5) 5 rfl (by decide) rfl rfl
  exact ⟨h.1, h.2.1, h.2.2.1, h.2.2.2.2 (by norm_num)⟩

/-- C5 counterexample: a search that returns the result list `["x"]` (a
list holding a bare string) makes the snippet loop raise `AttributeError`,
which escapes the per-factor handler: `assess` returns the error-only dict,
which contains neither `rationales` nor `raw_search_snippets`. -/
theorem C5_counterexample :
    assess_lead searchStr llmNone leadAcme = errorAssessment ∧
    hasKey (assess_lead searchStr llmNone leadAcme) "rationales" = false ∧
    hasKey (assess_lead searchStr llmNone leadAcme) "raw_search_snippets" = false :=
  ⟨rfl, rfl, rfl⟩

/-- C5 (amended): when every search result is a JSON object (dict), the
pipeline never raises for any completion behavior: the factor loop
completes (per-factor LLM failures are skipped), and the returned mapping
always holds `rationales` and `raw_search_snippets` and never `error`. -/
theorem C5_no_raise_dict_results (search : String → List JValue)
    (llm : String → Option JValue) (lead : Lead)
    (hs : ∀ q r, r ∈ search q → ∃ d, r = JValue.jobj d) :
    (∃ st, accumulatedAssessment search llm lead = .ok st) ∧
    hasKey (assess_lead search llm lead) "rationales" = true ∧
    hasKey (assess_lead search llm lead) "raw_search_snippets" = true ∧
    hasKey (assess_lead search llm lead) "error" = false := by
  obtain ⟨st, hst⟩ := runFactors_ok_of_dicts hs FACTOR_KEYS ⟨[], [], []⟩
  have hst' : accumulatedAssessment search llm lead = .ok st := hst
  refine ⟨⟨st, hst'⟩, ?_, ?_, ?_⟩
  · unfold assess_lead
    rw [hst']
    exact finalize_hasKey_rationales st
  · unfold assess_lead
    rw [hst']
    exact finalize_hasKey_raw st
  · unfold assess_lead
    rw [hst']
    rw [finalize_hasKey_of_not_special (by decide) (by decide) (by decide)]
    cases hb : hasKey st.assessment "error" with
    | false => rfl
    | true =>
      rcases runFactors_hasKey FACTOR_KEYS ⟨[], [], []⟩ st hst' "error" hb with h1 | h1
      · simp at h1
      · revert h1; decide

/-- C5 witness: with empty search results and an always-failing LLM, the
loop completes and the audit keys are present while `error` is absent. -/
theorem C5_no_raise_dict_results_witness :
    hasKey (assess_lead searchEmpty llmNone leadAcme) "rationales" = true ∧
    hasKey (assess_lead searchEmpty llmNone leadAcme) "raw_search_snippets" = true ∧
    hasKey (assess_lead searchEmpty llmNone leadAcme) "error" = false := by
  have h := C5_no_raise_dict_results searchEmpty llmNone leadAcme
    (fun q r hr => absurd hr (List.not_mem_nil r))
  exact ⟨h.2.1, h.2.2.1, h.2.2.2⟩

/-- C6: the JSON repair makes at most one fixer call; a first-parse success
returns the parsed value with zero fixer calls; on first-parse failure a
single fixer prompt is issued, and when the repaired text still fails to
parse (or the fixer itself raises) the error propagates; the per-factor
caller turns a `generate_json` failure into a skip of that factor without
aborting the loop. -/
theorem C6_json_repair_single_retry (loads : String → Option JValue)
    (generate_text : String → Option String) (text : String) :
    (fallback_to_json_conversion loads generate_text text).2 ≤ 1 ∧
    (∀ v, loads (stripFence text) = some v →
      fallback_to_json_conversion loads generate_text text = (.ok v, 0)) ∧
    (loads (stripFence text) = none →
      (fallback_to_json_conversion loads generate_text text).2 = 1 ∧
      (∀ fixed, generate_text (fixer_prompt (stripFence text)) = some fixed →
        loads (stripFence fixed) = none →
        (fallback_to_json_conversion loads generate_text text).1 = .error ()) ∧
      (generate_text (fixer_prompt (stripFence text)) = none →
        (fallback_to_json_conversion loads generate_text text).1 = .error ())) ∧
    (∀ (search : String → List JValue) (llm : String → Option JValue)
       (lead : Lead) (st : AssessState) (f : String) (sn : List JObj),
       llm f = none → search_for_factor search lead f = .ok sn →
       assessFactorStep search llm lead st f =
         .ok ⟨st.assessment,
              dictSet st.raw_search_snippets f (.jarr (sn.map .jobj)),
              st.rationales⟩) := by
  refine ⟨?_, ?_, ?_, ?_⟩
  · unfold fallback_to_json_conversion
    cases h1 : loads (stripFence text) with
    | some v => exact Nat.zero_le 1
    | none =>
      cases h2 : generate_text (fixer_prompt (stripFence text)) with
      | none => exact Nat.le_refl 1
      | some out =>
        show (match loads (stripFence out) with
              | some leads => ((Except.ok leads, 1) : Except Unit JValue × Nat)
              | none => ((Except.error (), 1) : Except Unit JValue × Nat)).2 ≤ 1
        cases h3 : loads (stripFence out) with
        | some v => exact Nat.le_refl 1
        | none => exact Nat.le_refl 1
  · intro v hv
    unfold fallback_to_json_conversion
    rw [hv]
  · intro h1
    unfold fallback_to_json_conversion
    rw [h1]
    cases h2 : generate_text (fixer_prompt (stripFence text)) with
    | none =>
      exact ⟨rfl, fun fixed hf => Option.noConfusion hf, fun _ => rfl⟩
    | some out =>
      refine ⟨?_, ?_, ?_⟩
      · show (match loads (stripFence out) with
              | some leads => ((Except.ok leads, 1) : Except Unit JValue × Nat)
              | none => ((Except.error (), 1) : Except Unit JValue × Nat)).2 = 1
        cases h3 : loads (stripFence out) with
        | some v => rfl
        | none => rfl
      · intro fixed hf h4
        have hof : out = fixed := by injection hf
        subst hof
        show (match loads (stripFence out) with
              | some leads => ((Except.ok leads, 1) : Except Unit JValue × Nat)
              | none => ((Except.error (), 1) : Except Unit JValue × Nat)).1 = Except.error ()
        rw [h4]
      · intro hx
        exact Option.noConfusion hx
  · intro search llm lead st f sn hllm hsn
    unfold assessFactorStep
    rw [hsn, hllm]

/-- C6 witness: with a `json.loads` that always fails and a fixer that
answers `z`, the repair makes exactly one fixer call and propagates the
error; the per-factor caller skips the factor and keeps looping. -/
theorem C6_json_repair_single_retry_witness :
    (fallback_to_json_conversion loadsNone genSome "x").1 = .error () ∧
    (fallback_to_json_conversion loadsNone genSome "x").2 = 1 ∧
    assessFactorStep searchEmpty llmNone leadAcme ⟨[], [], []⟩ "tech_stack" =
      .ok ⟨[], [("tech_stack", JValue.jarr [])], []⟩ := by
  have h := C6_json_repair_single_retry loadsNone genSome "x"
  have h3 := h.2.2.1 rfl
  refine ⟨h3.2.1 "z" rfl rfl, h3.1, ?_⟩
  have h4 := h.2.2.2 searchEmpty llmNone leadAcme ⟨[], [], []⟩ "tech_stack" [] rfl rfl
  exact h4.trans rfl

/-- C7: when an exception escapes the factor loop, `assess` returns the
dict holding only an `error` field, and persisting it leaves the stored
`lead_score` unchanged; in general persistence modifies `lead_score` only
when the assessment carries a value satisfying
`isinstance(..., (int, float))` under `lead_score`. -/
theorem C7_error_only_not_persisted (search : String → List JValue)
    (llm : String → Option JValue) (lead : Lead)
    (loads : String → Option JValue) (dumps : JObj → String) :
    (accumulatedAssessment search llm lead = .error () →
      assess_lead search llm lead = [("error", JValue.jstr "error")] ∧
      (persist_assessment loads dumps lead (assess_lead search llm lead)).lead_score =
        lead.lead_score) ∧
    (∀ (lead' : Lead) (a : JObj),
      (persist_assessment loads dumps lead' a).lead_score ≠ lead'.lead_score →
      ∃ v, pyGet a "lead_score" = some v ∧
        ((∃ q, v = JValue.jnum q) ∨ (∃ b, v = JValue.jbool b))) := by
  constructor
  · intro h
    have ha : assess_lead search llm lead = [("error", JValue.jstr "error")] := by
      unfold assess_lead
      rw [h]
      rfl
    refine ⟨ha, ?_⟩
    rw [ha]
    exact persist_lead_score_of_none rfl
  · intro lead' a hne
    rcases persist_lead_score_cases loads dumps lead' a with h | h
    · exact absurd h hne
    · exact h

/-- C7 witness: the string-result search makes the run fail; the error-only
dict is returned and persisting it leaves `lead_score` at its prior value,
while a numeric `lead_score` does change it. -/
theorem C7_error_only_not_persisted_witness :
    assess_lead searchStr llmNone leadAcme = [("error", JValue.jstr "error")] ∧
    (persist_assessment loadsNone dumpsEmpty leadAcme
      (assess_lead searchStr llmNone leadAcme)).lead_score = leadAcme.lead_score ∧
    (∃ v, pyGet [("lead_score", JValue.jnum 50)] "lead_score" = some v ∧
      ((∃ q, v = JValue.jnum q) ∨ (∃ b, v = JValue.jbool b))) := by
  have h := C7_error_only_not_persisted searchStr llmNone leadAcme loadsNone dumpsEmpty
  have h1 := h.1 rfl
  refine ⟨h1.1, h1.2, ?_⟩
  refine h.2 leadAcme [("lead_score", JValue.jnum 50)] ?_
  intro hx
  have : (50 : ℚ) = 0 := hx
  norm_num at this

/-- C8: for every assessment object (an error-only one included), a persist
whose commit succeeds sets the lead's status to `assessed` and stores the
object under the `assessment` key of `raw_data`; such a lead fails the
`status != "assessed"` filter of `assess_all_leads` and is never retried. -/
theorem C8_persist_marks_assessed (loads : String → Option JValue)
    (dumps : JObj → String) (lead : Lead) (assessment : JObj)
    (hwf : lead.raw_data = none ∨ ∃ s, lead.raw_data = some s ∧
      (s = "" ∨ loads s = none ∨ ∃ d, loads s = some (JValue.jobj d))) :
    (persist_assessment loads dumps lead assessment).status = "assessed" ∧
    (∃ existing, (persist_assessment loads dumps lead assessment).raw_data =
      some (dumps (dictSet existing "assessment" (.jobj assessment)))) ∧
    (∀ leads : List Lead,
      persist_assessment loads dumps lead assessment ∉
        assess_all_leads_selection leads) := by
  have hok : ∃ ex, persistExisting loads lead = .ok ex := by
    unfold persistExisting
    rcases hwf with h | ⟨s, hs, h⟩
    · rw [h]
      exact ⟨[], rfl⟩
    · simp only [hs]
      rcases h with rfl | h | ⟨d, hd⟩
      · exact ⟨[], by rw [if_pos rfl]⟩
      · by_cases hse : s = ""
        · exact ⟨[], by rw [if_pos hse]⟩
        · rw [if_neg hse, h]
          exact ⟨[("raw", JValue.jstr s)], rfl⟩
      · by_cases hse : s = ""
        · exact ⟨[], by rw [if_pos hse]⟩
        · rw [if_neg hse, hd]
          exact ⟨d, rfl⟩
  obtain ⟨ex, hex⟩ := hok
  have hstatus := @persist_status_of_ok loads dumps lead assessment ex hex
  refine ⟨hstatus, ⟨ex, persist_raw_of_ok hex⟩, ?_⟩
  intro leads hmem
  have hpred := List.of_mem_filter hmem
  rw [hstatus] at hpred
  simp at hpred

/-- C8 witness: persisting the error-only assessment on a fresh lead marks
it `assessed` and removes it from the retry selection. -/
theorem C8_persist_marks_assessed_witness :
    (persist_assessment loadsNone dumpsEmpty leadAcme errorAssessment).status =
      "assessed" ∧
    (∀ leads : List Lead,
      persist_assessment loadsNone dumpsEmpty leadAcme errorAssessment ∉
        assess_all_leads_selection leads) := by
  have h := C8_persist_marks_assessed loadsNone dumpsEmpty leadAcme
    errorAssessment (Or.inl rfl)
  exact ⟨h.1, h.2.2⟩

/-- C9 counterexample: for the source URL `http://[::1`, `urlparse` raises
(`ValueError: Invalid IPv6 URL`), so the host cannot be parsed; the claim's
format then has no `site:` clause, but the code's `except` fallback sets
`domain` to the whole URL and appends ` site:http://[::1`. -/
theorem C9_counterexample :
    urlparse_netloc "http://[::1" = none ∧
    seo_query_for_factor "Acme" "" (some "http://[::1") "brand_search_volume" ≠
      seoQueryClaim "Acme" "" (some "http://[::1") "brand_search_volume" :=
  ⟨rfl, by decide⟩

/-- C9 (amended): for every company name, industry, source URL and factor,
the query is the parenthesized clause of the quoted name (when non-empty)
and the OR-joined clause of at most 6 keywords (multi-word ones quoted),
followed by the industry when present, followed by `site:<host>` when a
source URL was supplied and its host parses to a non-empty netloc — except
that when host parsing raises (an unmatched bracketed host), the WHOLE
source URL is appended as the `site:` value; unknown factors fall back to
the factor name plus `website` and `reviews`. -/
theorem C9_seo_query_format (name industry : String)
    (source_url : Option String) (factor : String) :
    seo_query_for_factor name industry source_url factor =
      seoQueryAmended name industry source_url factor := by
  unfold seo_query_for_factor seoQueryAmended
  rw [baseClauseOf_eq]
  exact domain_step_eq source_url _

/-- C10 counterexample: a decodable response whose `organic` field is the
string `"abc"` makes `search` return the sliced string itself — not a list
of results — because Python slices strings without raising. -/
theorem C10_counterexample :
    serper_search (some (.jobj [("organic", .jstr "abc")])) 3 = .jstr "abc" ∧
    (∀ l : List JValue, JValue.jstr "abc" ≠ JValue.jarr l) :=
  ⟨rfl, fun _ h => JValue.noConfusion h⟩

/-- C10 (amended): `search` never raises — every transport, status or
decode failure yields `[]`, as does any body whose selected value cannot be
sliced; when the result is a list it has at most `num_results` elements;
the only non-list escape is a string `organic`/`results` value, which is
returned as a sliced string. -/
theorem C10_search_never_raises (resp : Option JValue) (n : ℕ) :
    (resp = none → serper_search resp n = .jarr []) ∧
    (serper_search_body resp n = none → serper_search resp n = .jarr []) ∧
    (∀ l, serper_search resp n = .jarr l → l.length ≤ n) ∧
    ((∃ l, serper_search resp n = .jarr l) ∨ (∃ s, serper_search resp n = .jstr s)) := by
  have hslice : ∀ v : JValue,
      (∀ l, (match pySlice v n with
             | some x => x
             | none => JValue.jarr []) = JValue.jarr l → l.length ≤ n) ∧
      ((∃ l, (match pySlice v n with
              | some x => x
              | none => JValue.jarr []) = JValue.jarr l) ∨
       (∃ s, (match pySlice v n with
              | some x => x
              | none => JValue.jarr []) = JValue.jstr s)) := by
    intro v
    cases v with
    | jarr l =>
      constructor
      · intro l' hl'
        have hl : l.take n = l' := by
          have := hl'
          injection this
        rw [← hl, List.length_take]
        exact min_le_left n l.length
      · exact .inl ⟨l.take n, rfl⟩
    | jstr s =>
      constructor
      · intro l' hl'
        exact JValue.noConfusion hl'
      · exact .inr ⟨String.mk (s.data.take n), rfl⟩
    | jnull =>
      exact ⟨fun l' hl' => by injection hl' with h; rw [← h]; exact Nat.zero_le n,
        .inl ⟨[], rfl⟩⟩
    | jbool b =>
      exact ⟨fun l' hl' => by injection hl' with h; rw [← h]; exact Nat.zero_le n,
        .inl ⟨[], rfl⟩⟩
    | jnum q =>
      exact ⟨fun l' hl' => by injection hl' with h; rw [← h]; exact Nat.zero_le n,
        .inl ⟨[], rfl⟩⟩
    | jobj d =>
      exact ⟨fun l' hl' => by injection hl' with h; rw [← h]; exact Nat.zero_le n,
        .inl ⟨[], rfl⟩⟩
  refine ⟨?_, ?_, ?_, ?_⟩
  · intro h
    subst h
    rfl
  · intro h
    unfold serper_search
    rw [h]
  · cases resp with
    | none =>
      intro l hl
      have : ([] : List JValue) = l := by
        have := hl
        injection this
      rw [← this]
      exact Nat.zero_le n
    | some data =>
      cases data with
      | jobj d => exact (hslice (pyOrValD (pyGet d "organic") (pyOrValD (pyGet d "results") (.jarr [])))).1
      | jnull => intro l hl; injection hl with h; rw [← h]; exact Nat.zero_le n
      | jbool b => intro l hl; injection hl with h; rw [← h]; exact Nat.zero_le n
      | jnum q => intro l hl; injection hl with h; rw [← h]; exact Nat.zero_le n
      | jstr s => intro l hl; injection hl with h; rw [← h]; exact Nat.zero_le n
      | jarr l₀ => intro l hl; injection hl with h; rw [← h]; exact Nat.zero_le n
  · cases resp with
    | none => exact .inl ⟨[], rfl⟩
    | some data =>
      cases data with
      | jobj d => exact (hslice (pyOrValD (pyGet d "organic") (pyOrValD (pyGet d "results") (.jarr [])))).2
      | jnull => exact .inl ⟨[], rfl⟩
      | jbool b => exact .inl ⟨[], rfl⟩
      | jnum q => exact .inl ⟨[], rfl⟩
      | jstr s => exact .inl ⟨[], rfl⟩
      | jarr l₀ => exact .inl ⟨[], rfl⟩

/-- C10 witness: a failed transport yields `[]`, and a well-formed response
is truncated to `num_results` elements. -/
theorem C10_search_never_raises_witness :
    serper_search none 0 = .jarr [] ∧
    serper_search (some (.jobj [("organic", .jarr [.jnull, .jnull])])) 1 =
      .jarr [.jnull] ∧
    ([JValue.jnull] : List JValue).length ≤ 1 := by
  refine ⟨(C10_search_never_raises none 0).1 rfl, rfl, ?_⟩
  exact (C10_search_never_raises
    (some (.jobj [("organic", .jarr [.jnull, .jnull])])) 1).2.2.1 [JValue.jnull] rfl

end AscendAI

